import Mathlib

/-!
Shallow embedding of the PowerSaving scheduler plugin,
pkg/trimaran/powersaving/powersaving.go.

Machine floating point (float64) is modelled by exact rationals; int64
values by Int. Go package-level mutable variables (hostLowCPUThreshold,
hostHighCPUThreshold, requestsMultiplier, requestsMilliCores) are passed
explicitly as a configuration record.
-/

/-- Framework constant framework.MaxNodeScore of the Kubernetes scheduler. -/
def MaxNodeScore : Int := 100

/-- Framework constant framework.MinNodeScore of the Kubernetes scheduler. -/
def MinNodeScore : Int := 0

/-- Time interval in seconds for each metrics agent ingestion
(powersaving.go line 44). -/
def metricsAgentReportingIntervalSeconds : Int := 60

/-- Package variable keplerEnabled (powersaving.go line 52): initialised to
false and never assigned anywhere in the file. -/
def keplerEnabled : Bool := false

/-- Go math.Round: round to the nearest integer, rounding halves away from
zero. Mathlib round rounds halves up, so negative arguments are reflected. -/
def goRound (x : ℚ) : Int := if x < 0 then -(round (-x)) else round x

/-- Metric type tags of the load-watcher library (watcher.CPU, watcher.Memory). -/
inductive MetricType
| CPU
| Memory
deriving DecidableEq, Repr

/-- Metric operator tags of the load-watcher library
(watcher.Average, watcher.Latest, watcher.Std). -/
inductive MetricOperator
| Average
| Latest
| Std
deriving DecidableEq, Repr

/-- One metric sample as returned by the load-watcher collector; field Type of
the Go struct is written mtype here. -/
structure Metric where
  mtype : MetricType
  operator : MetricOperator
  value : ℚ
deriving DecidableEq, Repr

/-- The CPU metric scan of Score (powersaving.go lines 123-132): every sample
of CPU type whose operator is Average or Latest overwrites the running
nodeCPUUtilPercent and sets cpuMetricFound; the pair of variables is modelled
as an Option. -/
def cpuUtilScan (metrics : List Metric) : Option ℚ :=
  metrics.foldl
    (fun acc metric =>
      if metric.mtype = MetricType.CPU ∧
          (metric.operator = MetricOperator.Average ∨
            metric.operator = MetricOperator.Latest) then
        some metric.value
      else acc)
    none

/-- Container resource declarations: CPU limit and CPU request in
milli-units, each possibly absent (presence of the v1.ResourceCPU key in
Resources.Limits and Resources.Requests). -/
structure Container where
  limitsCpuMilli : Option Int
  requestsCpuMilli : Option Int
deriving DecidableEq, Repr

/-- Configuration of the plugin: the Go package variables
hostLowCPUThreshold, hostHighCPUThreshold, requestsMultiplier and
requestsMilliCores (powersaving.go lines 47-53) made explicit. -/
structure PowerSavingConf where
  hostLowCPUThreshold : Int
  hostHighCPUThreshold : Int
  requestsMultiplier : ℚ
  requestsMilliCores : Int
deriving DecidableEq, Repr

/-- PredictUtilisation (powersaving.go lines 204-212): limit verbatim when
declared, else request scaled by requestsMultiplier and rounded by
math.Round, else the default requestsMilliCores. -/
def PredictUtilisation (conf : PowerSavingConf) (container : Container) : Int :=
  match container.limitsCpuMilli with
  | some limit => limit
  | none =>
    match container.requestsCpuMilli with
    | some request => goRound ((request : ℚ) * conf.requestsMultiplier)
    | none => conf.requestsMilliCores

/-- One entry of the pending-assignment registry
(trimaran.PodAssignEventHandler.ScheduledPodsCache): the assignment
timestamp in unix seconds, the containers of the pod and the CPU overhead of
the pod spec in milli-units. -/
structure PodInfo where
  timestampUnix : Int
  containers : List Container
  overheadCpuMilli : Int
deriving DecidableEq, Repr

/-- The counting condition of the pending-pod loop of Score (powersaving.go
lines 150-151): the timestamp is after the metrics window end, or it is at or
before the end and strictly less than one reporting interval before it. Go
operator precedence puts the conjunction inside the right disjunct. -/
def scheduledPodCounted (windowEnd timestamp : Int) : Bool :=
  timestamp > windowEnd ||
    (timestamp ≤ windowEnd &&
      windowEnd - timestamp < metricsAgentReportingIntervalSeconds)

/-- Predicted CPU load of one pending pod (powersaving.go lines 152-155):
PredictUtilisation summed over its containers plus the pod CPU overhead. -/
def podPredictedCPUMillis (conf : PowerSavingConf) (info : PodInfo) : Int :=
  (info.containers.map (PredictUtilisation conf)).sum + info.overheadCpuMilli

/-- The missingCPUUtilMillis accumulation of Score (powersaving.go lines
143-159) over the pending-assignment records of the scored node. -/
def missingCPUUtilMillis (conf : PowerSavingConf) (windowEnd : Int)
    (cache : List PodInfo) : Int :=
  cache.foldl
    (fun acc info =>
      if scheduledPodCounted windowEnd info.timestampUnix then
        acc + podPredictedCPUMillis conf info
      else acc)
    0

/-- The utilization reconciliation of Score (powersaving.go lines 138-139 and
162-164): convert the telemetry percentage to milli-units against node
capacity, add the missing utilization, and convert back to a percentage
unless the capacity is zero. -/
def reconcileUtilPercent (nodeCPUUtilPercent nodeCPUCapMillis : ℚ)
    (missing : Int) : ℚ :=
  let nodeCPUUtilMillis := (nodeCPUUtilPercent / 100) * nodeCPUCapMillis
  if nodeCPUCapMillis ≠ 0 then
    100 * (nodeCPUUtilMillis + (missing : ℚ)) / nodeCPUCapMillis
  else nodeCPUUtilPercent

/-- The three-zone threshold policy of Score (powersaving.go lines 174-180). -/
def thresholdScore (conf : PowerSavingConf) (nodeCPUUtilPercent : ℚ) : Int :=
  if nodeCPUUtilPercent ≥ (conf.hostHighCPUThreshold : ℚ) then
    goRound nodeCPUUtilPercent
  else if nodeCPUUtilPercent ≤ (conf.hostLowCPUThreshold : ℚ) then
    goRound (nodeCPUUtilPercent +
      ((conf.hostHighCPUThreshold - conf.hostLowCPUThreshold : Int) : ℚ))
  else
    goRound (nodeCPUUtilPercent - (conf.hostLowCPUThreshold : ℚ))

/-- Status of a scoring call: the Go code returns either
framework.NewStatus(framework.Error, ...), a nil status, or
framework.NewStatus(framework.Success, ""); the framework treats a nil
status as success, so both are modelled as success. -/
inductive PluginStatus
| success
| error
deriving DecidableEq, Repr

/-- Node inventory data used by Score: the CPU milli-capacity of the node
(Node().Status.Capacity.Cpu().MilliValue()). -/
structure NodeInfo where
  cpuCapMillis : Int
deriving DecidableEq, Repr

/-- Inputs of one Score call gathered from the collaborators: the snapshot
node lookup (none models the lookup error), GetNodeMetrics result (none
models a nil metrics slice), the metrics window end, and the
pending-assignment records cached for the scored node. -/
structure ScoreInput where
  nodeInfo : Option NodeInfo
  nodeMetrics : Option (List Metric)
  windowEnd : Int
  scheduledPodsCache : List PodInfo
deriving DecidableEq, Repr

/-- Score (powersaving.go lines 106-185). -/
def Score (conf : PowerSavingConf) (inp : ScoreInput) : Int × PluginStatus :=
  let score := MinNodeScore
  match inp.nodeInfo with
  | none => (score, PluginStatus.error)
  | some nodeInfo =>
    match inp.nodeMetrics with
    | none => (score, PluginStatus.success)
    | some metrics =>
      match cpuUtilScan metrics with
      | none => (score, PluginStatus.success)
      | some nodeCPUUtilPercent =>
        let missing :=
          missingCPUUtilMillis conf inp.windowEnd inp.scheduledPodsCache
        let adjusted :=
          reconcileUtilPercent nodeCPUUtilPercent
            (nodeInfo.cpuCapMillis : ℚ) missing
        if keplerEnabled then (score, PluginStatus.success)
        else (thresholdScore conf adjusted, PluginStatus.success)

/-- The threshold repair of New (powersaving.go lines 74-84), returning the
effective (hostLowCPUThreshold, hostHighCPUThreshold) pair; the argument-cast
and collector failures of New happen before this block and do not involve
the thresholds. -/
def New (lowCPUThreshold highCPUThreshold : Int) : Int × Int :=
  let hostHighCPUThreshold := highCPUThreshold
  let hostLowCPUThreshold := lowCPUThreshold
  let hostHighCPUThreshold :=
    if hostHighCPUThreshold > MaxNodeScore then MaxNodeScore
    else hostHighCPUThreshold
  let hostLowCPUThreshold :=
    if hostLowCPUThreshold < MinNodeScore then MinNodeScore
    else hostLowCPUThreshold
  let hostLowCPUThreshold :=
    if hostLowCPUThreshold > hostHighCPUThreshold then hostHighCPUThreshold
    else hostLowCPUThreshold
  (hostLowCPUThreshold, hostHighCPUThreshold)

/-- One entry of framework.NodeScoreList; NodeScore is a struct value, and
NodeScoreList a slice of such values, not of pointers. -/
structure NodeScore where
  name : String
  score : Int
deriving DecidableEq, Repr

/-- NormalizeScore (powersaving.go lines 191-201). The Go loop is written
for _, nodeScore := range scores, which binds nodeScore to a copy of each
slice element; the assignments nodeScore.Score = ... on lines 194 and 196
update that copy, and the slice the caller passed is left exactly as it was.
The loop body is kept here, producing the clamped copy and discarding it. -/
def NormalizeScore (scores : List NodeScore) : List NodeScore :=
  scores.foldl
    (fun result nodeScore =>
      let _clampedCopy :=
        if nodeScore.score > MaxNodeScore then
          { nodeScore with score := MaxNodeScore }
        else if nodeScore.score < MinNodeScore then
          { nodeScore with score := MinNodeScore }
        else nodeScore
      result)
    scores

/-- Follows the words of the spec for ScoreNormalizer (spec section 4.5):
clamp every score into [MinScore, MaxScore] elementwise, values above
MaxScore becoming MaxScore and values below MinScore becoming MinScore.
Stated only to be compared with NormalizeScore as embedded from the code. -/
def NormalizeScoreSpec (scores : List NodeScore) : List NodeScore :=
  scores.map
    (fun nodeScore =>
      if nodeScore.score > MaxNodeScore then
        { nodeScore with score := MaxNodeScore }
      else if nodeScore.score < MinNodeScore then
        { nodeScore with score := MinNodeScore }
      else nodeScore)

/-! Helper lemmas about goRound, shared by several developments below. -/

/-- Rounding an integer-valued rational is the identity. -/
theorem goRound_intCast (n : ℤ) : goRound (n : ℚ) = n := by
  unfold goRound
  split_ifs with h
  · rw [← Int.cast_neg, round_intCast, neg_neg]
  · exact round_intCast n

/-- Half-away-from-zero rounding is monotone. -/
theorem goRound_mono {x y : ℚ} (h : x ≤ y) : goRound x ≤ goRound y := by
  have hr : ∀ a b : ℚ, a ≤ b → round a ≤ round b := by
    intro a b hab
    rw [round_eq, round_eq]
    exact Int.floor_mono (by linarith)
  unfold goRound
  split_ifs with hx hy hy2
  · have := hr (-y) (-x) (by linarith)
    omega
  · have h1 : 0 ≤ round (-x) := by
      rw [round_eq]
      exact Int.floor_nonneg.mpr (by linarith)
    have h2 : 0 ≤ round y := by
      rw [round_eq]
      exact Int.floor_nonneg.mpr (by linarith [not_lt.mp hy])
    omega
  · exact absurd hy2 (not_lt.mpr (le_trans (not_lt.mp hx) h))
  · exact hr x y h

/-- goRound returns a nearest integer: the distance to the argument is at
most one half. -/
theorem abs_sub_goRound (x : ℚ) : |x - (goRound x : ℚ)| ≤ 1 / 2 := by
  unfold goRound
  split_ifs with hx
  · have h := abs_sub_round (-x)
    push_cast
    have he : -x - (round (-x) : ℚ) = -(x + (round (-x) : ℚ)) := by ring
    rw [he, abs_neg] at h
    convert h using 2
    ring
  · exact abs_sub_round x

/-- goRound sends exact halves away from zero, on both sides of zero. -/
theorem goRound_half_away (n : ℤ) (hn : 0 ≤ n) :
    goRound ((n : ℚ) + 1 / 2) = n + 1 ∧ goRound (-((n : ℚ) + 1 / 2)) = -(n + 1) := by
  have hpos : (0 : ℚ) < (n : ℚ) + 1 / 2 := by
    have : (0 : ℚ) ≤ (n : ℚ) := by exact_mod_cast hn
    linarith
  have hround : round ((n : ℚ) + 1 / 2) = n + 1 := by
    rw [add_comm, round_add_int, one_div, round_two_inv]
    omega
  constructor
  · unfold goRound
    rw [if_neg (by linarith), hround]
  · unfold goRound
    rw [if_pos (by linarith), neg_neg, hround]

/-! Helper lemmas about the three zones of thresholdScore. -/

/-- In the high zone the score is the rounded utilization. -/
theorem thresholdScore_high (conf : PowerSavingConf) (util : ℚ)
    (h : (conf.hostHighCPUThreshold : ℚ) ≤ util) :
    thresholdScore conf util = goRound util := by
  unfold thresholdScore
  rw [if_pos h]

/-- At or below the low threshold the score is the utilization shifted up by
the threshold gap; this also covers the degenerate overlap where both
thresholds coincide and the high branch fires with the same value. -/
theorem thresholdScore_low (conf : PowerSavingConf) (util : ℚ)
    (hlh : conf.hostLowCPUThreshold ≤ conf.hostHighCPUThreshold)
    (h : util ≤ (conf.hostLowCPUThreshold : ℚ)) :
    thresholdScore conf util =
      goRound (util +
        ((conf.hostHighCPUThreshold - conf.hostLowCPUThreshold : Int) : ℚ)) := by
  unfold thresholdScore
  by_cases hh : util ≥ (conf.hostHighCPUThreshold : ℚ)
  · rw [if_pos hh]
    have hcast : (conf.hostLowCPUThreshold : ℚ) ≤ (conf.hostHighCPUThreshold : ℚ) := by
      exact_mod_cast hlh
    have heq : conf.hostHighCPUThreshold = conf.hostLowCPUThreshold := by
      have : (conf.hostHighCPUThreshold : ℚ) = (conf.hostLowCPUThreshold : ℚ) :=
        le_antisymm (le_trans hh h) hcast
      exact_mod_cast this
    rw [heq, sub_self]
    norm_num
  · rw [if_neg hh, if_pos h]

/-- Strictly between the thresholds the score is the utilization reduced by
the low threshold. -/
theorem thresholdScore_mid (conf : PowerSavingConf) (util : ℚ)
    (h1 : (conf.hostLowCPUThreshold : ℚ) < util)
    (h2 : util < (conf.hostHighCPUThreshold : ℚ)) :
    thresholdScore conf util = goRound (util - (conf.hostLowCPUThreshold : ℚ)) := by
  unfold thresholdScore
  rw [if_neg (not_le.mpr h2), if_neg (not_le.mpr h1)]

/-! Helper lemmas about the metric scan and the missing-utilization fold. -/

/-- Folding the CPU scan over samples with no matching CPU sample keeps the
accumulated value. -/
theorem cpuUtilScan_no_match (ms : List Metric) (v : ℚ)
    (h : ∀ m ∈ ms, ¬(m.mtype = MetricType.CPU ∧
        (m.operator = MetricOperator.Average ∨ m.operator = MetricOperator.Latest))) :
    ms.foldl
        (fun acc metric =>
          if metric.mtype = MetricType.CPU ∧
              (metric.operator = MetricOperator.Average ∨
                metric.operator = MetricOperator.Latest) then
            some metric.value
          else acc)
        (some v) = some v := by
  induction ms with
  | nil => rfl
  | cons head tail ih =>
    rw [List.foldl_cons, if_neg (h head (List.mem_cons_self head tail))]
    exact ih (fun m hm => h m (List.mem_cons_of_mem head hm))

/-- The missing-utilization fold started from any accumulator equals the
accumulator plus the fold started from zero. -/
theorem missingFoldShift (conf : PowerSavingConf) (windowEnd : Int)
    (cache : List PodInfo) :
    ∀ acc : Int,
      cache.foldl
          (fun acc info =>
            if scheduledPodCounted windowEnd info.timestampUnix then
              acc + podPredictedCPUMillis conf info
            else acc)
          acc
        = acc + missingCPUUtilMillis conf windowEnd cache := by
  induction cache with
  | nil => intro acc; simp [missingCPUUtilMillis]
  | cons head tail ih =>
    intro acc
    rw [List.foldl_cons, ih]
    have hhead :
        missingCPUUtilMillis conf windowEnd (head :: tail)
          = (if scheduledPodCounted windowEnd head.timestampUnix then
              (0 : Int) + podPredictedCPUMillis conf head
            else 0) + missingCPUUtilMillis conf windowEnd tail := by
      unfold missingCPUUtilMillis
      rw [List.foldl_cons, ih]
      rfl
    rw [hhead]
    split_ifs <;> omega

/-- The missing-utilization total is the sum of the predicted loads of
exactly the counted records. -/
theorem missingCPUUtilMillis_eq_filter_sum (conf : PowerSavingConf)
    (windowEnd : Int) (cache : List PodInfo) :
    missingCPUUtilMillis conf windowEnd cache
      = ((cache.filter
            (fun info => scheduledPodCounted windowEnd info.timestampUnix)).map
          (podPredictedCPUMillis conf)).sum := by
  induction cache with
  | nil => rfl
  | cons head tail ih =>
    have hstep :
        missingCPUUtilMillis conf windowEnd (head :: tail)
          = (if scheduledPodCounted windowEnd head.timestampUnix then
              (0 : Int) + podPredictedCPUMillis conf head
            else 0) + missingCPUUtilMillis conf windowEnd tail := by
      unfold missingCPUUtilMillis
      rw [List.foldl_cons, missingFoldShift]
      rfl
    rw [hstep, ih, List.filter_cons]
    by_cases hc : scheduledPodCounted windowEnd head.timestampUnix
    · rw [if_pos hc, if_pos hc, List.map_cons, List.sum_cons]
      omega
    · rw [if_neg hc, if_neg hc]
      omega

/-- C1: refuted by the code (bug in the code). The Go loop of NormalizeScore
is written for _, nodeScore := range scores, which binds a copy of each
NodeScore value, so a score of 150 above MaxNodeScore = 100 is still 150 in
the list the caller passed after the call, while the clamping stated by the
spec (NormalizeScoreSpec) would turn it into 100. -/
theorem normalizeScore_does_not_clamp :
    NormalizeScore [⟨"node1", 150⟩] = [⟨"node1", 150⟩] ∧
      MaxNodeScore < 150 ∧
      NormalizeScoreSpec [⟨"node1", 150⟩] = [⟨"node1", 100⟩] :=
  ⟨rfl, by decide, rfl⟩

/-- C2 counterexample: with LowCPUThreshold = 0 and HighCPUThreshold = -5 the
effective thresholds after New are (-5, -5), below MinNodeScore = 0: the
high threshold is never clamped from below, so the claimed invariant
MinScore ≤ lowThreshold ≤ highThreshold fails. -/
theorem new_negative_high_not_repaired :
    New 0 (-5) = (-5, -5) ∧ ¬ MinNodeScore ≤ (New 0 (-5)).1 := by decide

/-- C2 amended: after New the effective thresholds always satisfy
low ≤ high ≤ MaxNodeScore, and additionally MinNodeScore ≤ low whenever the
supplied high threshold is at least MinNodeScore; the repair happens in New
only. -/
theorem new_threshold_repair (low high : Int) :
    (New low high).1 ≤ (New low high).2 ∧
      (New low high).2 ≤ MaxNodeScore ∧
      (MinNodeScore ≤ high → MinNodeScore ≤ (New low high).1) := by
  unfold New MaxNodeScore MinNodeScore
  dsimp only
  split_ifs <;> omega

/-- Witness for the amended C2 statement at the concrete input (-7, 250). -/
theorem new_threshold_repair_witness :
    MinNodeScore ≤ (New (-7) 250).1 ∧ (New (-7) 250).1 ≤ (New (-7) 250).2 ∧
      (New (-7) 250).2 ≤ MaxNodeScore :=
  ⟨(new_threshold_repair (-7) 250).2.2 (by decide),
    (new_threshold_repair (-7) 250).1,
    (new_threshold_repair (-7) 250).2.1⟩

/-- C5 counterexample: a pending record whose timestamp is exactly one
reporting interval (60 seconds) before the window end is at or before the
end and within one interval of it, yet its predicted load of 500 milli-units
contributes nothing, because the code compares with a strict less-than. -/
theorem missing_exact_interval_not_counted :
    (0 : Int) ≤ 60 ∧ (60 : Int) - 0 ≤ metricsAgentReportingIntervalSeconds ∧
      podPredictedCPUMillis ⟨10, 30, 1, 100⟩ ⟨0, [⟨some 500, none⟩], 0⟩ = 500 ∧
      missingCPUUtilMillis ⟨10, 30, 1, 100⟩ 60 [⟨0, [⟨some 500, none⟩], 0⟩] = 0 :=
  ⟨by decide, by decide, rfl, rfl⟩

/-- C5 amended: the predicted load of a record is added exactly when its
timestamp is strictly after the window end, or is at or before the end and
strictly less than one reporting interval (60 seconds) before it; records a
full interval or more before the end contribute nothing. -/
theorem missing_counted_iff (conf : PowerSavingConf) (windowEnd : Int)
    (cache : List PodInfo) :
    missingCPUUtilMillis conf windowEnd cache
        = ((cache.filter
              (fun info => scheduledPodCounted windowEnd info.timestampUnix)).map
            (podPredictedCPUMillis conf)).sum ∧
      ∀ t : Int, scheduledPodCounted windowEnd t = true ↔
        (windowEnd < t ∨
          (t ≤ windowEnd ∧ windowEnd - t < metricsAgentReportingIntervalSeconds)) := by
  refine ⟨missingCPUUtilMillis_eq_filter_sum conf windowEnd cache, ?_⟩
  intro t
  simp [scheduledPodCounted]

/-- C6: strict precedence of PredictUtilisation: a declared limit is
returned verbatim whatever the request; with no limit a declared request is
scaled by the multiplier and rounded; with neither, the configured default
is returned. Total and deterministic by construction. -/
theorem predictUtilisation_precedence (conf : PowerSavingConf)
    (container : Container) :
    (∀ limit : Int, container.limitsCpuMilli = some limit →
        PredictUtilisation conf container = limit) ∧
      (container.limitsCpuMilli = none →
        ∀ request : Int, container.requestsCpuMilli = some request →
          PredictUtilisation conf container =
            goRound ((request : ℚ) * conf.requestsMultiplier)) ∧
      (container.limitsCpuMilli = none → container.requestsCpuMilli = none →
        PredictUtilisation conf container = conf.requestsMilliCores) := by
  rcases container with ⟨_ | lim, _ | req⟩ <;>
    refine ⟨?_, ?_, ?_⟩ <;> intros <;> simp_all [PredictUtilisation]

/-- Witness for C6 at a container declaring both a limit and a request: the
limit of 300 wins over the request of 200 and the multiplier of 2. -/
theorem predictUtilisation_precedence_witness :
    PredictUtilisation ⟨0, 0, 2, 100⟩ ⟨some 300, some 200⟩ = 300 :=
  (predictUtilisation_precedence ⟨0, 0, 2, 100⟩ ⟨some 300, some 200⟩).1 300 rfl

/-- C7: a zero CPU capacity leaves the telemetry percentage unmodified and
the division branch is not taken; a nonzero capacity recomputes the
percentage as 100 (utilMillis + missingMillis) / capacityMillis. -/
theorem reconcile_zero_capacity (percent cap : ℚ) (missing : Int) :
    (cap = 0 → reconcileUtilPercent percent cap missing = percent) ∧
      (cap ≠ 0 → reconcileUtilPercent percent cap missing
          = 100 * ((percent / 100) * cap + (missing : ℚ)) / cap) := by
  unfold reconcileUtilPercent
  dsimp only
  constructor
  · intro h
    rw [if_neg (not_not_intro h)]
  · intro h
    rw [if_pos h]

/-- Witness for C7: zero capacity returns the percentage as is, and a
thousand milli-unit capacity with 100 missing milli-units lifts 50 percent
to 60 percent. -/
theorem reconcile_zero_capacity_witness :
    reconcileUtilPercent 50 0 700 = 50 ∧ reconcileUtilPercent 50 1000 100 = 60 := by
  constructor
  · exact (reconcile_zero_capacity 50 0 700).1 rfl
  · rw [(reconcile_zero_capacity 50 1000 100).2 (by norm_num)]
    norm_num

/-- C3: the three-zone policy computes goRound util at or above the high
threshold, goRound (util + gap) at or below the low threshold, and
goRound (util - lowT) strictly between them; the zones cover every
utilization and the middle zone excludes both boundaries; rounding is to a
nearest integer with halves sent away from zero. -/
theorem thresholdScore_zone_correct (conf : PowerSavingConf)
    (hlh : conf.hostLowCPUThreshold ≤ conf.hostHighCPUThreshold) :
    (∀ util : ℚ, (conf.hostHighCPUThreshold : ℚ) ≤ util →
        thresholdScore conf util = goRound util) ∧
      (∀ util : ℚ, util ≤ (conf.hostLowCPUThreshold : ℚ) →
        thresholdScore conf util = goRound (util +
          ((conf.hostHighCPUThreshold - conf.hostLowCPUThreshold : Int) : ℚ))) ∧
      (∀ util : ℚ, (conf.hostLowCPUThreshold : ℚ) < util →
        util < (conf.hostHighCPUThreshold : ℚ) →
        thresholdScore conf util = goRound (util - (conf.hostLowCPUThreshold : ℚ))) ∧
      (∀ util : ℚ,
        ((conf.hostHighCPUThreshold : ℚ) ≤ util ∨
            util ≤ (conf.hostLowCPUThreshold : ℚ) ∨
            ((conf.hostLowCPUThreshold : ℚ) < util ∧
              util < (conf.hostHighCPUThreshold : ℚ))) ∧
          ¬(((conf.hostHighCPUThreshold : ℚ) ≤ util ∨
              util ≤ (conf.hostLowCPUThreshold : ℚ)) ∧
            ((conf.hostLowCPUThreshold : ℚ) < util ∧
              util < (conf.hostHighCPUThreshold : ℚ)))) ∧
      (∀ x : ℚ, |x - (goRound x : ℚ)| ≤ 1 / 2) ∧
      (∀ n : ℤ, 0 ≤ n → goRound ((n : ℚ) + 1 / 2) = n + 1 ∧
        goRound (-((n : ℚ) + 1 / 2)) = -(n + 1)) := by
  refine ⟨fun util h => thresholdScore_high conf util h,
    fun util h => thresholdScore_low conf util hlh h,
    fun util h1 h2 => thresholdScore_mid conf util h1 h2,
    fun util => ⟨?_, ?_⟩, abs_sub_goRound, goRound_half_away⟩
  · by_cases hh : (conf.hostHighCPUThreshold : ℚ) ≤ util
    · exact Or.inl hh
    · by_cases hl : util ≤ (conf.hostLowCPUThreshold : ℚ)
      · exact Or.inr (Or.inl hl)
      · exact Or.inr (Or.inr ⟨not_le.mp hl, not_le.mp hh⟩)
  · rintro ⟨h1 | h1, h2, h3⟩
    · exact absurd h1 (not_le.mpr h3)
    · exact absurd h1 (not_le.mpr h2)

/-- Witness for C3 at thresholds (10, 30), reproducing the literal scenario
of the spec: util 5 scores 25, util 20 scores 10, util 30 scores 30. -/
theorem thresholdScore_zone_correct_witness :
    thresholdScore ⟨10, 30, 1, 100⟩ 5 = 25 ∧
      thresholdScore ⟨10, 30, 1, 100⟩ 20 = 10 ∧
      thresholdScore ⟨10, 30, 1, 100⟩ 30 = 30 := by
  have h := thresholdScore_zone_correct ⟨10, 30, 1, 100⟩ (by decide)
  refine ⟨?_, ?_, ?_⟩
  · rw [h.2.1 5 (by norm_num)]
    norm_num [goRound]
  · rw [h.2.2.1 20 (by norm_num) (by norm_num)]
    norm_num [goRound]
  · rw [h.1 30 (by norm_num)]
    norm_num [goRound]

/-- C8: with fixed thresholds low ≤ high, the score is non-decreasing in the
utilization within the high zone, within the low zone and within the middle
zone. -/
theorem thresholdScore_monotone_in_zone (conf : PowerSavingConf)
    (hlh : conf.hostLowCPUThreshold ≤ conf.hostHighCPUThreshold)
    (u1 u2 : ℚ) (hu : u1 ≤ u2) :
    ((conf.hostHighCPUThreshold : ℚ) ≤ u1 →
        thresholdScore conf u1 ≤ thresholdScore conf u2) ∧
      (u2 ≤ (conf.hostLowCPUThreshold : ℚ) →
        thresholdScore conf u1 ≤ thresholdScore conf u2) ∧
      ((conf.hostLowCPUThreshold : ℚ) < u1 → u2 < (conf.hostHighCPUThreshold : ℚ) →
        thresholdScore conf u1 ≤ thresholdScore conf u2) := by
  refine ⟨fun h1 => ?_, fun h2 => ?_, fun h3 h4 => ?_⟩
  · rw [thresholdScore_high conf u1 h1, thresholdScore_high conf u2 (le_trans h1 hu)]
    exact goRound_mono hu
  · rw [thresholdScore_low conf u1 hlh (le_trans hu h2),
      thresholdScore_low conf u2 hlh h2]
    exact goRound_mono (by linarith)
  · rw [thresholdScore_mid conf u1 h3 (lt_of_le_of_lt hu h4),
      thresholdScore_mid conf u2 (lt_of_lt_of_le h3 hu) h4]
    exact goRound_mono (by linarith)

/-- Witness for C8 in the high zone at thresholds (10, 30): the score at 35
is at most the score at 40. -/
theorem thresholdScore_monotone_in_zone_witness :
    thresholdScore ⟨10, 30, 1, 100⟩ 35 ≤ thresholdScore ⟨10, 30, 1, 100⟩ 40 :=
  (thresholdScore_monotone_in_zone ⟨10, 30, 1, 100⟩ (by decide) 35 40
    (by norm_num)).1 (by norm_num)

/-- C9: when several CPU samples with operator Average or Latest occur, the
scan of Score keeps the value of the last one in list order: any matching
sample followed only by non-matching samples decides the value, whatever
earlier samples said. -/
theorem cpuUtilScan_last_match (ms1 ms2 : List Metric) (m : Metric)
    (hm : m.mtype = MetricType.CPU ∧
      (m.operator = MetricOperator.Average ∨ m.operator = MetricOperator.Latest))
    (h2 : ∀ x ∈ ms2, ¬(x.mtype = MetricType.CPU ∧
      (x.operator = MetricOperator.Average ∨ x.operator = MetricOperator.Latest))) :
    cpuUtilScan (ms1 ++ m :: ms2) = some m.value := by
  unfold cpuUtilScan
  rw [List.foldl_append, List.foldl_cons, if_pos hm]
  exact cpuUtilScan_no_match ms2 m.value h2

/-- Witness for C9: two matching CPU samples, 40 then 70, followed by a
memory sample; the scan returns 70, the later match. -/
theorem cpuUtilScan_last_match_witness :
    cpuUtilScan [⟨MetricType.CPU, MetricOperator.Average, 40⟩,
      ⟨MetricType.CPU, MetricOperator.Latest, 70⟩,
      ⟨MetricType.Memory, MetricOperator.Average, 10⟩] = some 70 := by
  have h2 : ∀ x ∈ [(⟨MetricType.Memory, MetricOperator.Average, 10⟩ : Metric)],
      ¬(x.mtype = MetricType.CPU ∧
        (x.operator = MetricOperator.Average ∨ x.operator = MetricOperator.Latest)) := by
    intro x hx
    rw [List.mem_singleton] at hx
    subst hx
    simp
  exact cpuUtilScan_last_match [⟨MetricType.CPU, MetricOperator.Average, 40⟩]
    [⟨MetricType.Memory, MetricOperator.Average, 10⟩]
    ⟨MetricType.CPU, MetricOperator.Latest, 70⟩ (by simp) h2

/-- C10: in the request branch the returned value is the exact product of
the request and the multiplier rounded half away from zero: a nearest
integer, with nonnegative half ties rounded up, not a truncation. -/
theorem predictUtilisation_request_rounded (conf : PowerSavingConf)
    (container : Container) (request : Int)
    (hl : container.limitsCpuMilli = none)
    (hr : container.requestsCpuMilli = some request) :
    PredictUtilisation conf container
        = goRound ((request : ℚ) * conf.requestsMultiplier) ∧
      |(request : ℚ) * conf.requestsMultiplier
          - (PredictUtilisation conf container : ℚ)| ≤ 1 / 2 ∧
      (∀ n : ℤ, 0 ≤ n →
        (request : ℚ) * conf.requestsMultiplier = (n : ℚ) + 1 / 2 →
        PredictUtilisation conf container = n + 1) := by
  have heq : PredictUtilisation conf container
      = goRound ((request : ℚ) * conf.requestsMultiplier) := by
    rcases container with ⟨lim, req⟩
    simp_all [PredictUtilisation]
  refine ⟨heq, ?_, ?_⟩
  · rw [heq]
    exact abs_sub_goRound ((request : ℚ) * conf.requestsMultiplier)
  · intro n hn hprod
    rw [heq, hprod]
    exact (goRound_half_away n hn).1

/-- Witness for C10: request 5 with multiplier 3/2 gives the product 7.5,
returned as 8 (truncation would give 7). -/
theorem predictUtilisation_request_rounded_witness :
    PredictUtilisation ⟨0, 0, 3/2, 100⟩ ⟨none, some 5⟩ = 8 := by
  have h := (predictUtilisation_request_rounded ⟨0, 0, 3/2, 100⟩
    ⟨none, some 5⟩ 5 rfl rfl).2.2 7 (by norm_num) (by norm_num)
  simpa using h

/-- C4: Score returns the error status exactly when the node lookup fails;
with the node resolved, absent metrics or metrics without a matching CPU
sample both return the minimum score with a success status. -/
theorem score_error_only_on_missing_node (conf : PowerSavingConf)
    (inp : ScoreInput) :
    ((Score conf inp).2 = PluginStatus.error ↔ inp.nodeInfo = none) ∧
      (inp.nodeInfo ≠ none → inp.nodeMetrics = none →
        Score conf inp = (MinNodeScore, PluginStatus.success)) ∧
      (inp.nodeInfo ≠ none → ∀ ms, inp.nodeMetrics = some ms →
        cpuUtilScan ms = none →
        Score conf inp = (MinNodeScore, PluginStatus.success)) := by
  obtain ⟨ni, nm, wE, cache⟩ := inp
  cases ni with
  | none =>
    refine ⟨by simp [Score], ?_, ?_⟩
    · intro h
      simp at h
    · intro h
      simp at h
  | some node =>
    cases nm with
    | none =>
      refine ⟨by simp [Score], fun _ _ => by simp [Score], ?_⟩
      intro _ ms hms
      simp at hms
    | some metrics =>
      rcases hscan : cpuUtilScan metrics with _ | v
      · refine ⟨by simp [Score, hscan], fun _ hnm => by simp at hnm, ?_⟩
        intro _ ms hms hnone
        simp at hms
        subst hms
        simp [Score, hscan]
      · refine ⟨by simp [Score, hscan, keplerEnabled], fun _ hnm => by simp at hnm, ?_⟩
        intro _ ms hms hnone
        simp at hms
        subst hms
        rw [hscan] at hnone
        simp at hnone

/-- Witness for C4: a failed node lookup yields the error status, and a
resolved node with no metrics yields the minimum score with success. -/
theorem score_error_only_on_missing_node_witness :
    (Score ⟨10, 30, 1, 100⟩ ⟨none, none, 0, []⟩).2 = PluginStatus.error ∧
      Score ⟨10, 30, 1, 100⟩ ⟨some ⟨64000⟩, none, 0, []⟩
        = (MinNodeScore, PluginStatus.success) := by
  constructor
  · exact (score_error_only_on_missing_node ⟨10, 30, 1, 100⟩
      ⟨none, none, 0, []⟩).1.mpr rfl
  · exact (score_error_only_on_missing_node ⟨10, 30, 1, 100⟩
      ⟨some ⟨64000⟩, none, 0, []⟩).2.1 (by simp) rfl
